import Mathlib

/-!
Verification development for the Agentic_Resell repository.

Embedding conventions:
* Python floats on prices and percentages are modelled by `ℚ`; every value
  occurring in the claims is an exactly representable decimal.
* `round(x, 2)` is modelled by `pyRound2` (round half to even at 2 decimals).
* Python dicts holding evaluated listings are modelled by the structure
  `Item`; optional fields are `Option`-valued, and Python truthiness of a
  boolean field is `= some true`.
* Fallible code (`raise ValueError`) is modelled with `Except String`.
-/

set_option linter.unusedVariables false

set_option allowUnsafeReducibility true in
attribute [semireducible] Rat.ofScientific Rat.mul Rat.inv Rat.add Rat.sub

deriving instance DecidableEq for Except

/-- Characters stripped by Python `str.strip()` (whitespace set, restricted to
the characters that can occur in this program's price strings). -/
def pySpace (c : Char) : Bool :=
  c = ' ' || c = '\t' || c = '\n' || c = '\r' || c = '\x0b' || c = '\x0c' || c = '\xa0'

/-- Python `s.strip()` on a character list. -/
def pyStrip (l : List Char) : List Char :=
  ((l.dropWhile pySpace).reverse.dropWhile pySpace).reverse

/-- Python `s.replace("VB", "")`: drop every (non-overlapping, left-to-right)
occurrence of the two-character sequence `VB`. -/
def removeVB : List Char → List Char
  | [] => []
  | 'V' :: 'B' :: rest => removeVB rest
  | c :: rest => c :: removeVB rest

/-- Character class of the regex `[\d\.,]+` from `price_calculation.py`. -/
def isPriceChar (c : Char) : Bool := c.isDigit || c = '.' || c = ','

/-- `re.search` with pattern `[\d\.,]+`: the first maximal run of
digit/dot/comma characters, or `none` when no such character occurs. -/
def firstRun : List Char → Option (List Char)
  | [] => none
  | c :: cs => if isPriceChar c then some (c :: cs.takeWhile isPriceChar) else firstRun cs

/-- Locale disambiguation of `_parse_price` (lines 62-69 of
`price_calculation.py`): with both `.` and `,` present remove the dots and
turn commas into dots; with only `,` present turn commas into dots;
otherwise keep the run unchanged. -/
def normalizeNum (num : List Char) : List Char :=
  if num.contains '.' && num.contains ',' then
    (num.filter (fun c => c ≠ '.')).map (fun c => if c = ',' then '.' else c)
  else if num.contains ',' then
    num.map (fun c => if c = ',' then '.' else c)
  else num

/-- Split a character list at every `'.'`. -/
def splitDot : List Char → List (List Char)
  | [] => [[]]
  | c :: rest =>
    if c = '.' then [] :: splitDot rest
    else
      match splitDot rest with
      | [] => [[c]]
      | p :: ps => (c :: p) :: ps

/-- Numeric value of a digit list. -/
def digitsVal (l : List Char) : ℕ := l.foldl (fun n c => 10 * n + (c.toNat - 48)) 0

def allDigits (l : List Char) : Bool := l.all Char.isDigit

/-- Python `float(num)` restricted to strings over digits and dots (the only
characters reaching that conversion in `_parse_price`): at most one dot and
at least one digit, value read in decimal. -/
def decParse (l : List Char) : Option ℚ :=
  match splitDot l with
  | [intp] =>
    if allDigits intp && !intp.isEmpty then some (digitsVal intp) else none
  | [intp, frac] =>
    if allDigits intp && allDigits frac && !(intp ++ frac).isEmpty then
      some ((digitsVal intp : ℚ) + (digitsVal frac : ℚ) / (10 : ℚ) ^ frac.length)
    else none
  | _ => none

/-- `_parse_price` from `price_calculation.py`.  The two euro replacements of
the source (`'€'` and `'€'`) are the same character, modelled by one
filter.  The `isinstance` guard for non-string input is handled by
`parsePriceOpt` below. -/
def _parse_price (s : String) : Except String ℚ :=
  if s.data.isEmpty then .error "invalid price"
  else
    let l1 := pyStrip s.data
    let l2 := pyStrip ((removeVB (l1.filter (fun c => c ≠ '€'))).filter (fun c => c ≠ '\xa0'))
    match firstRun l2 with
    | none => .error "no numeric part"
    | some num =>
      match decParse (normalizeNum num) with
      | some q => .ok q
      | none => .error "could not parse"

/-- `_parse_price` on a possibly-missing input (`None` in Python is falsy, so
it fails the `if not price_str` validation exactly like the empty string). -/
def parsePriceOpt : Option String → Except String ℚ
  | none => .error "invalid price"
  | some s => _parse_price s

/-- Round a rational to the nearest integer, halves to even (Python `round`). -/
def rndHalfEven (x : ℚ) : ℤ :=
  let f : ℤ := Rat.floor x
  if x - f < 1 / 2 then f
  else if (1 : ℚ) / 2 < x - f then f + 1
  else if f % 2 = 0 then f else f + 1

/-- Python `round(x, 2)`. -/
def pyRound2 (x : ℚ) : ℚ := (rndHalfEven (x * 100) : ℚ) / 100

/-- Insertion into a sorted list (ascending). -/
def insSorted (x : ℚ) : List ℚ → List ℚ
  | [] => [x]
  | y :: ys => if x ≤ y then x :: y :: ys else y :: insSorted x ys

/-- Ascending sort, as performed by `statistics.median`. -/
def sortQ (l : List ℚ) : List ℚ := l.foldr insSorted []

def listMin : List ℚ → ℚ
  | [] => 0
  | x :: xs => xs.foldl min x

def listMax : List ℚ → ℚ
  | [] => 0
  | x :: xs => xs.foldl max x

/-- `statistics.median`: middle element of the sorted data for odd length,
arithmetic mean of the two middle elements for even length.  (Callers in the
source only invoke it on non-empty data.) -/
def medianQ (l : List ℚ) : ℚ :=
  let s := sortQ l
  if s.length % 2 = 1 then s.getD (s.length / 2) 0
  else (s.getD (s.length / 2 - 1) 0 + s.getD (s.length / 2) 0) / 2

/-- An evaluated listing dict.  Absent keys are `none`; Python truthiness of
the boolean fields is `= some true`. -/
structure Item where
  id : Option String := none
  price : Option String := none
  price_str : Option String := none
  is_match : Option Bool := none
  match_status : Option Bool := none
deriving DecidableEq

/-- Python `a or b` on an optional string and a string default (an empty
string is falsy). -/
def orStr (a : Option String) (b : String) : String :=
  match a with
  | some s => if s = "" then b else s
  | none => b

/-- `it.get('price') or it.get('price_str') or ''` from
`calculate_from_evaluation`. -/
def priceField (it : Item) : String := orStr it.price (orStr it.price_str "")

/-- The price of a listing when `_parse_price` succeeds on its price field. -/
def parsedPrice (it : Item) : Option ℚ := (_parse_price (priceField it)).toOption

/-- The `prices` collection of `calculate_from_evaluation`: all parseable
prices, in input order. -/
def allPrices (items : List Item) : List ℚ := items.filterMap parsedPrice

/-- The `prices_from_matches` collection: parseable prices of items whose
`is_match` is literally `True`. -/
def matchPrices (items : List Item) : List ℚ :=
  items.filterMap (fun it => if it.is_match = some true then parsedPrice it else none)

structure Stats3 where
  min : ℚ
  max : ℚ
  median : ℚ
deriving DecidableEq

structure PriceStats where
  count_prices_parsed : ℕ
  count_listings : ℕ
  price_statistics_all : Option Stats3
  price_statistics_matches : Option Stats3
deriving DecidableEq

/-- `PriceCalculator.calculate_from_evaluation` from `price_calculation.py`,
applied to the `individual_results_evaluation` list of the payload. -/
def calculate_from_evaluation (items : List Item) : PriceStats :=
  let prices := allPrices items
  let pm := matchPrices items
  { count_prices_parsed := prices.length
    count_listings := items.length
    price_statistics_all :=
      if prices = [] then none
      else some ⟨pyRound2 (listMin prices), pyRound2 (listMax prices), pyRound2 (medianQ prices)⟩
    price_statistics_matches :=
      if pm = [] then none
      else some ⟨pyRound2 (listMin pm), pyRound2 (listMax pm), pyRound2 (medianQ pm)⟩ }

structure Metrics where
  count_positive : ℕ
  count_negative : ℕ
  total_listings : ℕ
  match_percentage : ℚ
  overall_sufficiency : String
deriving DecidableEq

/-- The positive count of `EvaluationMetricsTool._run`: items whose
`is_match` or `match_status` is literally `True`. -/
def posCount (items : List Item) : ℕ :=
  (items.filter (fun i => i.is_match = some true ∨ i.match_status = some true)).length

/-- `EvaluationMetricsTool._run` from `metrics_tools.py` on an already-parsed
list of item dicts (the JSON-string entry point parses into the same list). -/
def EvaluationMetricsTool_run (items : List Item) : Except String Metrics :=
  if items = [] then .error "Empty dataset provided."
  else
    let pos := posCount items
    let total := items.length
    let pct := if 0 < total then pyRound2 ((pos : ℚ) / (total : ℚ) * 100) else 0
    .ok
    { count_positive := pos
      count_negative := total - pos
      total_listings := total
      match_percentage := pct
      overall_sufficiency := if 50 ≤ pct ∧ 3 ≤ pos then "sufficient" else "not sufficient" }

/-! ## Workflow embedding (`workflow.py`, `ResellWorkflow.run`) -/

/-- The `all_unique_matches` accumulator: a Python dict from string keys to
items, modelled as an insertion-ordered association list (updating an
existing key keeps its position, a new key is appended — Python dict
semantics). -/
abbrev Accum := List (String × Item)

def accKeys (acc : Accum) : List String := acc.map Prod.fst

def accValues (acc : Accum) : List Item := acc.map Prod.snd

def accLookup (k : String) (acc : Accum) : Option Item :=
  (acc.find? (fun e => e.1 = k)).map Prod.snd

/-- `all_unique_matches[k] = v` on a Python dict. -/
def dictInsert (acc : Accum) (k : String) (v : Item) : Accum :=
  if acc.any (fun e => e.1 = k) then
    acc.map (fun e => if e.1 = k then (k, v) else e)
  else acc ++ [(k, v)]

/-- Python `str(m.get("id"))`: a missing id prints as `"None"`. -/
def pyStrId : Option String → String
  | none => "None"
  | some s => s

/-- The filter of `current_matches` (workflow.py line 316): truthy
`is_match` or truthy `match_status`. -/
def isCurrentMatch (it : Item) : Bool :=
  it.is_match == some true || it.match_status == some true

/-- Lines 314-321 of `workflow.py`: filter the current evaluation's matches
and write each into the accumulator under `str(item id)`. -/
def mergeMatches (acc : Accum) (items : List Item) : Accum :=
  (items.filter isCurrentMatch).foldl (fun a m => dictInsert a (pyStrId m.id) m) acc

/-- The parsed output of the evaluation crew (`eval_data`), with every field
optional as in the collaborator contract. -/
structure EvalData where
  individual_results_evaluation : List Item := []
  count_positive : Option ℕ := none
  count_negative : Option ℕ := none
  total_listings : Option ℕ := none
  match_percentage : Option ℚ := none
  overall_sufficiency : Option String := none
  query_improvement_feedback : Option String := none
deriving DecidableEq

structure Derived where
  cp : ℕ
  cn : ℕ
  tl : ℕ
  pct : ℚ
deriving DecidableEq

/-- Lines 330-341 of `workflow.py`: take `count_positive`, `count_negative`,
`total_listings` from the evaluation payload when present, otherwise
recompute the counts from the truthy `is_match` flags and the total as their
sum; `match_percentage` is read with default `0`. -/
def derivedMetrics (ed : EvalData) : Derived :=
  let cp :=
    match ed.count_positive with
    | some v => v
    | none => (ed.individual_results_evaluation.filter (fun e => e.is_match = some true)).length
  let cn :=
    match ed.count_negative with
    | some v => v
    | none => (ed.individual_results_evaluation.filter (fun e => ¬(e.is_match = some true))).length
  let tl :=
    match ed.total_listings with
    | some v => v
    | none => cp + cn
  { cp := cp, cn := cn, tl := tl, pct := ed.match_percentage.getD 0 }

/-- One recorded iteration (`step_res`), restricted to the fields the claims
are about (`query`/`evaluation` are carried verbatim in the source and play
no role in any claim). -/
structure IterRes where
  iteration : ℕ
  count_positive : ℕ
  count_negative : ℕ
  total_listings : ℕ
  match_percentage : ℚ
  price_statistics : PriceStats
deriving DecidableEq

/-- `best_res.get("match_percentage", -1)`: the tracker starts as
`{"match_percentage": 0}` (modelled as `none`) and otherwise is a recorded
iteration, so the key is always present. -/
def bestPct : Option IterRes → ℚ
  | none => 0
  | some r => r.match_percentage

/-- `best_res.get("iteration", 0)`: the initial tracker has no iteration. -/
def bestIterNum : Option IterRes → ℕ
  | none => 0
  | some r => r.iteration

/-- Lines 366-368 of `workflow.py`: replace the tracker only when the
iteration's percentage is strictly greater. -/
def bestUpd (b : Option IterRes) (r : IterRes) : Option IterRes :=
  if bestPct b < r.match_percentage then some r else b

/-- Outcome of one iteration index of the refinement loop, as seen by the
controller: the query-regeneration call raised (iterations ≥ 2 only), the
scraped-data verification failed (missing/empty/unreadable file), the
evaluation crew raised, or the evaluation produced a payload.  A non-dict
payload is replaced by `{"individual_results_evaluation": []}` in the
source, hence arrives here as an `EvalData` with an empty list. -/
inductive StepOutcome where
  | queryError
  | noData
  | evalError
  | evaluated (ed : EvalData)

def isEval : StepOutcome → Bool
  | .evaluated _ => true
  | _ => false

/-- The final dict assembled by `run`/`_finalize`, restricted to the fields
the claims are about.  A phase-1 failure returns `best_result = {}` and
exhaustion with an untouched tracker returns `{"match_percentage": 0}`; both
are modelled as `none`. -/
structure RunResult where
  success : Bool
  error : Option String := none
  best_iteration : ℕ
  best_result : Option IterRes
  history : List IterRes
deriving DecidableEq

/-- The `step_res` dict recorded for iteration `i` processing payload `ed`
with incoming accumulator `acc` (lines 314-360 of `workflow.py`): cumulative
price statistics over the merged accumulator plus the derived metrics. -/
def stepRecord (acc : Accum) (i : ℕ) (ed : EvalData) : IterRes :=
  let acc2 := mergeMatches acc ed.individual_results_evaluation
  let stats := calculate_from_evaluation (accValues acc2)
  let d := derivedMetrics ed
  { iteration := i, count_positive := d.cp, count_negative := d.cn
    total_listings := d.tl, match_percentage := d.pct, price_statistics := stats }

/-- The phase-2 loop of `ResellWorkflow.run` (lines 219-381), indexed by the
remaining iteration indices.  A `queryError`/`noData`/`evalError` outcome is
a `continue`: the attempt is consumed and no state changes.  An `evaluated`
outcome merges matches, recomputes cumulative price statistics, derives the
metrics, records the iteration, updates the best tracker, and stops when the
payload reports `"sufficient"`; exhaustion finalizes with the tracker. -/
def runFrom (o : ℕ → StepOutcome) : List ℕ → Accum → Option IterRes → List IterRes → RunResult
  | [], _, best, hist =>
    { success := false, error := none, best_iteration := bestIterNum best
      best_result := best, history := hist }
  | i :: rest, acc, best, hist =>
    match o i with
    | .queryError => runFrom o rest acc best hist
    | .noData => runFrom o rest acc best hist
    | .evalError => runFrom o rest acc best hist
    | .evaluated ed =>
      let r := stepRecord acc i ed
      let best2 := bestUpd best r
      let hist2 := hist ++ [r]
      if ed.overall_sufficiency = some "sufficient" then
        { success := true, error := none, best_iteration := i
          best_result := best2, history := hist2 }
      else runFrom o rest (mergeMatches acc ed.individual_results_evaluation) best2 hist2

/-- Python `str(e)[:200]` (character slice). -/
def pyTrunc (msg : String) (n : ℕ) : String := ⟨msg.data.take n⟩

/-- Outcome of phase 1 (image analysis and initial query): a
`RecursionError`, another exception with message `msg`, or a parsed
analysis whose `"error"` key holds `errorKey` when present. -/
inductive AnalysisOutcome where
  | recErr
  | exc (msg : String)
  | result (errorKey : Option String)

/-- Lines 168-203 of `workflow.py`: the error message a phase-1 failure
surfaces, or `none` when the workflow proceeds to the loop.  The generic
exception path truncates to 200 characters; the explicit error-status path
surfaces the reported value as-is. -/
def phase1 : AnalysisOutcome → Option String
  | .recErr => some "maximum recursion depth exceeded"
  | .exc msg => some (pyTrunc msg 200)
  | .result (some err) => some err
  | .result none => none

/-- `ResellWorkflow.run`: phase 1 followed by the three-iteration loop with
a fresh accumulator, tracker and history. -/
def ResellWorkflow_run (a : AnalysisOutcome) (o : ℕ → StepOutcome) : RunResult :=
  match phase1 a with
  | some msg =>
    { success := false, error := some msg, best_iteration := 0
      best_result := none, history := [] }
  | none => runFrom o [1, 2, 3] [] none []

/-! ## Concrete inputs used by witnesses, examples and counterexamples -/

/-- A listing marked as a match. -/
def itM : Item := { is_match := some true }

/-- A listing marked as a non-match. -/
def itN : Item := { is_match := some false }

/-- First listing of the spec's statistics example. -/
def exL1 : Item := { price := some "120 €", is_match := some true }

/-- Second listing of the spec's statistics example (unparseable price). -/
def exL2 : Item := { price := some "xyz", is_match := some false }

/-- Third listing of the spec's statistics example. -/
def exL3 : Item := { price := some "1.234,56 €", is_match := some true }

/-- A listing accumulated only through `match_status` (no `is_match` key). -/
def itMS : Item := { id := some "a", price := some "120 €", match_status := some true }

def edMS : EvalData := { individual_results_evaluation := [itMS] }

/-- Two id-less matching listings with different prices. -/
def mN1 : Item := { price := some "100 €", is_match := some true }

def mN2 : Item := { price := some "200 €", is_match := some true }

def ed40 : EvalData := { match_percentage := some 40 }

def ed55 : EvalData := { match_percentage := some 55 }

def ed60 : EvalData := { match_percentage := some 60 }

def oC6a : ℕ → StepOutcome :=
  fun i => if i = 1 then .evaluated ed40 else if i = 2 then .evaluated ed40 else .evaluated ed55

def oC6b : ℕ → StepOutcome :=
  fun i => if i = 3 then .noData else .evaluated ed60

def oC10 : ℕ → StepOutcome :=
  fun i =>
    if i = 1 then .evaluated { individual_results_evaluation := [mN1] }
    else if i = 2 then .evaluated { individual_results_evaluation := [mN2] }
    else .noData

/-- Payload with one matching listing and no reported `match_percentage`. -/
def edC4a : EvalData := { individual_results_evaluation := [{ is_match := some true }] }

/-- Payload that is locally sufficient (5 of 8 matches) but reports no
`overall_sufficiency`. -/
def edC4b : EvalData :=
  { individual_results_evaluation := List.replicate 5 itM ++ List.replicate 3 itN }

def ed5a : EvalData := { individual_results_evaluation := [exL1] }

def ed5b : EvalData := { individual_results_evaluation := [exL3] }

def o5 : ℕ → StepOutcome :=
  fun i => if i = 1 then .evaluated ed5a else if i = 2 then .evaluated ed5b else .noData

/-- Payload with all fields absent. -/
def edZero : EvalData := {}

def oZero : ℕ → StepOutcome := fun _ => .evaluated edZero

/-- A 201-character error message. -/
def longMsg : String := ⟨List.replicate 201 'x'⟩

/-- Spec-side definition (§4.5 step 6 of the spec, used to test claim C4):
the match percentage recomputed locally from the per-listing `is_match`
flags, as the claim says the controller does when the collaborator omits
it. -/
def spec_local_match_percentage (items : List Item) : ℚ :=
  if items.length = 0 then 0
  else pyRound2 (((items.filter (fun e => e.is_match = some true)).length : ℚ)
    / (items.length : ℚ) * 100)

/-- Spec-side definition (§4.4/§4.5 step 8, used to test claim C4): the
locally derived sufficiency verdict from the per-listing `is_match` flags. -/
def spec_local_sufficient (items : List Item) : Bool :=
  decide (50 ≤ spec_local_match_percentage items ∧
    3 ≤ (items.filter (fun e => e.is_match = some true)).length)

/-! ## Helper lemmas -/

theorem stepRecord_iteration (acc : Accum) (i : ℕ) (ed : EvalData) :
    (stepRecord acc i ed).iteration = i := rfl

theorem stepRecord_pct (acc : Accum) (i : ℕ) (ed : EvalData) :
    (stepRecord acc i ed).match_percentage = ed.match_percentage.getD 0 := rfl

theorem stepRecord_stats (acc : Accum) (i : ℕ) (ed : EvalData) :
    (stepRecord acc i ed).price_statistics
      = calculate_from_evaluation (accValues (mergeMatches acc ed.individual_results_evaluation)) := rfl

/-- The loop appends its records to the incoming history, and the final
tracker is the `bestUpd`-fold of the appended records over the incoming
tracker. -/
theorem runFrom_decomp (o : ℕ → StepOutcome) :
    ∀ (idxs : List ℕ) (acc : Accum) (b : Option IterRes) (hist : List IterRes),
      ∃ es, (runFrom o idxs acc b hist).history = hist ++ es ∧
        (runFrom o idxs acc b hist).best_result = es.foldl bestUpd b := by
  intro idxs
  induction idxs with
  | nil =>
    intro acc b hist
    exact ⟨[], by simp [runFrom], by simp [runFrom]⟩
  | cons i rest ih =>
    intro acc b hist
    cases h : o i with
    | queryError => simpa [runFrom, h] using ih acc b hist
    | noData => simpa [runFrom, h] using ih acc b hist
    | evalError => simpa [runFrom, h] using ih acc b hist
    | evaluated ed =>
      by_cases hs : ed.overall_sufficiency = some "sufficient"
      · exact ⟨[stepRecord acc i ed], by simp [runFrom, h, hs], by simp [runFrom, h, hs]⟩
      · obtain ⟨es, h1, h2⟩ := ih (mergeMatches acc ed.individual_results_evaluation)
          (bestUpd b (stepRecord acc i ed)) (hist ++ [stepRecord acc i ed])
        refine ⟨stepRecord acc i ed :: es, ?_, ?_⟩
        · simp [runFrom, h, hs, h1]
        · simp [runFrom, h, hs, h2]

/-- One loop step on an `evaluated`, non-sufficient payload. -/
theorem runFrom_step_evaluated (o : ℕ → StepOutcome) (i : ℕ) (rest : List ℕ) (acc : Accum)
    (b : Option IterRes) (hist : List IterRes) (ed : EvalData)
    (h : o i = .evaluated ed) (hs : ¬ed.overall_sufficiency = some "sufficient") :
    runFrom o (i :: rest) acc b hist
      = runFrom o rest (mergeMatches acc ed.individual_results_evaluation)
          (bestUpd b (stepRecord acc i ed)) (hist ++ [stepRecord acc i ed]) := by
  simp [runFrom, h, hs]

/-- One loop step on an `evaluated` payload that reports `"sufficient"`. -/
theorem runFrom_step_evaluated_stop (o : ℕ → StepOutcome) (i : ℕ) (rest : List ℕ) (acc : Accum)
    (b : Option IterRes) (hist : List IterRes) (ed : EvalData)
    (h : o i = .evaluated ed) (hs : ed.overall_sufficiency = some "sufficient") :
    runFrom o (i :: rest) acc b hist
      = { success := true, error := none, best_iteration := i
          best_result := bestUpd b (stepRecord acc i ed)
          history := hist ++ [stepRecord acc i ed] } := by
  simp [runFrom, h, hs]

/-- Records already in the history stay at their positions. -/
theorem runFrom_history_getElem (o : ℕ → StepOutcome) (idxs : List ℕ) (acc : Accum)
    (b : Option IterRes) (hist : List IterRes) (n : ℕ) (hn : n < hist.length) :
    (runFrom o idxs acc b hist).history[n]? = hist[n]? := by
  obtain ⟨es, hh, _⟩ := runFrom_decomp o idxs acc b hist
  rw [hh]
  exact List.getElem?_append_left hn

/-- Every record in the loop's history either was already in the incoming
history or stems from an `evaluated` outcome at its own iteration index. -/
theorem runFrom_entries (o : ℕ → StepOutcome) :
    ∀ (idxs : List ℕ) (acc : Accum) (b : Option IterRes) (hist : List IterRes),
      ∀ r ∈ (runFrom o idxs acc b hist).history,
        r ∈ hist ∨ ∃ ed, o r.iteration = .evaluated ed ∧
          r.match_percentage = ed.match_percentage.getD 0 := by
  intro idxs
  induction idxs with
  | nil =>
    intro acc b hist r hr
    exact Or.inl (by simpa [runFrom] using hr)
  | cons i rest ih =>
    intro acc b hist r hr
    cases h : o i with
    | queryError => exact ih acc b hist r (by simpa [runFrom, h] using hr)
    | noData => exact ih acc b hist r (by simpa [runFrom, h] using hr)
    | evalError => exact ih acc b hist r (by simpa [runFrom, h] using hr)
    | evaluated ed =>
      have hnew : r = stepRecord acc i ed →
          ∃ ed2, o r.iteration = .evaluated ed2 ∧
            r.match_percentage = ed2.match_percentage.getD 0 := by
        intro he
        exact ⟨ed, by rw [he, stepRecord_iteration, h], by rw [he, stepRecord_pct]⟩
      by_cases hs : ed.overall_sufficiency = some "sufficient"
      · have hr2 : r ∈ hist ++ [stepRecord acc i ed] := by simpa [runFrom, h, hs] using hr
        rcases List.mem_append.mp hr2 with hl | hr3
        · exact Or.inl hl
        · exact Or.inr (hnew (by simpa using hr3))
      · have hr2 := ih (mergeMatches acc ed.individual_results_evaluation)
          (bestUpd b (stepRecord acc i ed)) (hist ++ [stepRecord acc i ed]) r
          (by simpa [runFrom, h, hs] using hr)
        rcases hr2 with hr3 | hr3
        · rcases List.mem_append.mp hr3 with hl | hr4
          · exact Or.inl hl
          · exact Or.inr (hnew (by simpa using hr4))
        · exact Or.inr hr3

/-- When no processed payload reports `"sufficient"`, the loop exhausts: it
fails, its best-iteration number is the tracker's, and it records exactly
one history entry per `evaluated` outcome. -/
theorem runFrom_noStop (o : ℕ → StepOutcome) :
    ∀ (idxs : List ℕ),
      (∀ i ∈ idxs, ∀ ed, o i = .evaluated ed → ¬ed.overall_sufficiency = some "sufficient") →
      ∀ (acc : Accum) (b : Option IterRes) (hist : List IterRes),
        (runFrom o idxs acc b hist).success = false ∧
        (runFrom o idxs acc b hist).best_iteration
          = bestIterNum (runFrom o idxs acc b hist).best_result ∧
        (runFrom o idxs acc b hist).history.length
          = hist.length + (idxs.filter (fun i => isEval (o i))).length := by
  intro idxs
  induction idxs with
  | nil =>
    intro _ acc b hist
    exact ⟨rfl, rfl, by simp [runFrom]⟩
  | cons i rest ih =>
    intro hno acc b hist
    have hrest : ∀ j ∈ rest, ∀ ed, o j = .evaluated ed →
        ¬ed.overall_sufficiency = some "sufficient" :=
      fun j hj => hno j (List.mem_cons_of_mem i hj)
    cases h : o i with
    | queryError => simpa [runFrom, h, isEval, List.filter_cons] using ih hrest acc b hist
    | noData => simpa [runFrom, h, isEval, List.filter_cons] using ih hrest acc b hist
    | evalError => simpa [runFrom, h, isEval, List.filter_cons] using ih hrest acc b hist
    | evaluated ed =>
      have hs : ¬ed.overall_sufficiency = some "sufficient" :=
        hno i (List.mem_cons_self i rest) ed h
      have hiev : isEval (StepOutcome.evaluated ed) = true := rfl
      have := ih hrest (mergeMatches acc ed.individual_results_evaluation)
        (bestUpd b (stepRecord acc i ed)) (hist ++ [stepRecord acc i ed])
      refine ⟨?_, ?_, ?_⟩
      · simpa [runFrom, h, hs] using this.1
      · simpa [runFrom, h, hs] using this.2.1
      · have hlen := this.2.2
        simp only [List.length_append, List.length_cons, List.length_nil] at hlen
        simp [runFrom, h, hs, List.filter_cons, hiev, hlen]
        omega

/-- The loop records at most one history entry per `evaluated` outcome. -/
theorem runFrom_len_le (o : ℕ → StepOutcome) :
    ∀ (idxs : List ℕ) (acc : Accum) (b : Option IterRes) (hist : List IterRes),
      (runFrom o idxs acc b hist).history.length
        ≤ hist.length + (idxs.filter (fun i => isEval (o i))).length := by
  intro idxs
  induction idxs with
  | nil => intro acc b hist; simp [runFrom]
  | cons i rest ih =>
    intro acc b hist
    cases h : o i with
    | queryError => simpa [runFrom, h, isEval, List.filter_cons] using ih acc b hist
    | noData => simpa [runFrom, h, isEval, List.filter_cons] using ih acc b hist
    | evalError => simpa [runFrom, h, isEval, List.filter_cons] using ih acc b hist
    | evaluated ed =>
      have hiev : isEval (StepOutcome.evaluated ed) = true := rfl
      by_cases hs : ed.overall_sufficiency = some "sufficient"
      · simp [runFrom, h, hs, List.filter_cons, hiev]
      · have := ih (mergeMatches acc ed.individual_results_evaluation)
          (bestUpd b (stepRecord acc i ed)) (hist ++ [stepRecord acc i ed])
        simp only [List.length_append, List.length_singleton] at this
        simp [runFrom, h, hs, List.filter_cons, hiev]
        omega

/-- Folding `bestUpd` over records whose percentage is `0` never replaces an
empty tracker (the strict comparison `0 > 0` fails). -/
theorem foldl_bestUpd_zero :
    ∀ (es : List IterRes), (∀ r ∈ es, r.match_percentage = 0) →
      es.foldl bestUpd none = none := by
  intro es
  induction es with
  | nil => intro _; rfl
  | cons r es ih =>
    intro h
    have h0 : r.match_percentage = 0 := h r (List.mem_cons_self r es)
    have hupd : bestUpd none r = none := by simp [bestUpd, bestPct, h0]
    rw [List.foldl_cons, hupd]
    exact ih fun x hx => h x (List.mem_cons_of_mem r hx)

theorem accKeys_dictInsert (acc : Accum) (k : String) (v : Item) :
    accKeys (dictInsert acc k v)
      = if acc.any (fun e => e.1 = k) then accKeys acc else accKeys acc ++ [k] := by
  unfold dictInsert accKeys
  split
  · rw [List.map_map]
    refine List.map_congr_left ?_
    intro e _
    by_cases he : e.1 = k
    · simp [he]
    · simp [he]
  · simp

theorem nodup_dictInsert (acc : Accum) (k : String) (v : Item)
    (h : (accKeys acc).Nodup) : (accKeys (dictInsert acc k v)).Nodup := by
  rw [accKeys_dictInsert]
  split
  · exact h
  · rename_i hany
    have hk : k ∉ accKeys acc := by
      intro hmem
      obtain ⟨e, he, hek⟩ := List.mem_map.mp hmem
      exact hany (List.any_eq_true.mpr ⟨e, he, by simp [hek]⟩)
    rw [← List.concat_eq_append]
    exact h.concat hk

theorem nodup_foldl_dictInsert :
    ∀ (ms : List Item) (acc : Accum), (accKeys acc).Nodup →
      (accKeys (ms.foldl (fun a m => dictInsert a (pyStrId m.id) m) acc)).Nodup := by
  intro ms
  induction ms with
  | nil => intro acc h; simpa using h
  | cons m ms ih =>
    intro acc h
    simpa [List.foldl_cons] using ih _ (nodup_dictInsert _ _ _ h)

theorem find?_map_replace (k : String) (v : Item) :
    ∀ (acc : Accum), acc.any (fun e => e.1 = k) = true →
      (acc.map (fun e => if e.1 = k then (k, v) else e)).find? (fun e => e.1 = k)
        = some (k, v) := by
  intro acc
  induction acc with
  | nil => intro h; simp at h
  | cons e rest ih =>
    intro h
    by_cases he : e.1 = k
    · simp [he, List.find?_cons_of_pos]
    · have hrest : rest.any (fun e => e.1 = k) = true := by
        simpa [List.any_cons, he] using h
      simpa [he, List.find?_cons_of_neg] using ih hrest

/-- Inserting under key `k` makes `k` map to the inserted value. -/
theorem accLookup_dictInsert_self (acc : Accum) (k : String) (v : Item) :
    accLookup k (dictInsert acc k v) = some v := by
  unfold accLookup dictInsert
  split
  · rename_i hany
    rw [find?_map_replace k v acc hany]
    rfl
  · rename_i hany
    have hnone : acc.find? (fun e => e.1 = k) = none := by
      refine List.find?_eq_none.mpr ?_
      intro x hx
      simp only [decide_eq_true_eq]
      intro hxk
      exact hany (List.any_eq_true.mpr ⟨x, hx, by simp [hxk]⟩)
    rw [List.find?_append, hnone]
    simp

theorem mergeMatches_single (acc : Accum) (m : Item) (hm : isCurrentMatch m = true) :
    mergeMatches acc [m] = dictInsert acc (pyStrId m.id) m := by
  simp [mergeMatches, hm]

theorem allPrices_cons_none (it : Item) (items : List Item) (h : parsedPrice it = none) :
    allPrices (it :: items) = allPrices items := by
  simp [allPrices, List.filterMap_cons, h]

theorem matchPrices_cons_none (it : Item) (items : List Item) (h : parsedPrice it = none) :
    matchPrices (it :: items) = matchPrices items := by
  by_cases him : it.is_match = some true <;>
    simp [matchPrices, List.filterMap_cons, him, h]

/-! ## Claim theorems -/

/-- C1: evaluation of `_parse_price` on the claim's literals.  The German
literals, the integer literal and the error cases behave exactly as the
claim states, but on the US-format input `"1,234.56"` the code returns
`1.23456` instead of the `1234.56` promised by the claim and by the
function's own docstring: the both-separators branch unconditionally treats
every dot as a thousands separator and every comma as the decimal point,
which mangles comma-thousands/dot-decimal strings. -/
theorem claim_C1_code_evaluation :
    _parse_price "120 €" = .ok 120 ∧
    _parse_price "199 € VB" = .ok 199 ∧
    _parse_price "1.234,56 €" = .ok 1234.56 ∧
    _parse_price "1234" = .ok 1234 ∧
    _parse_price "" = .error "invalid price" ∧
    parsePriceOpt none = .error "invalid price" ∧
    _parse_price "abc" = .error "no numeric part" ∧
    _parse_price "1,234.56" = .ok 1.23456 ∧
    (1.23456 : ℚ) ≠ 1234.56 := by
  refine ⟨by decide, by decide, by decide, by decide, by decide, by decide, by decide,
    by decide, by decide⟩

/-- C2: on every non-empty item list the metrics tool returns the positive
count, negative count `total - positive`, the total, the percentage
`round(positive / total * 100, 2)`, and reports `"sufficient"` exactly when
the rounded percentage is at least `50` and the positive count at least `3`;
in particular 5-of-8 is sufficient, 2-of-2 is not (count floor), and 3-of-10
is not (percentage floor). -/
theorem claim_C2 :
    (∀ items : List Item, items ≠ [] →
      ∃ m, EvaluationMetricsTool_run items = .ok m ∧
        m.count_positive = posCount items ∧
        m.count_negative = items.length - posCount items ∧
        m.total_listings = items.length ∧
        m.match_percentage = pyRound2 ((posCount items : ℚ) / (items.length : ℚ) * 100) ∧
        (m.overall_sufficiency = "sufficient" ↔
          50 ≤ m.match_percentage ∧ 3 ≤ m.count_positive)) ∧
    EvaluationMetricsTool_run (List.replicate 5 itM ++ List.replicate 3 itN)
      = .ok ⟨5, 3, 8, 62.5, "sufficient"⟩ ∧
    EvaluationMetricsTool_run (List.replicate 2 itM)
      = .ok ⟨2, 0, 2, 100, "not sufficient"⟩ ∧
    EvaluationMetricsTool_run (List.replicate 3 itM ++ List.replicate 7 itN)
      = .ok ⟨3, 7, 10, 30, "not sufficient"⟩ := by
  refine ⟨?_, by decide, by decide, by decide⟩
  intro items h
  have hlen : 0 < items.length := List.length_pos.mpr h
  have hrun : EvaluationMetricsTool_run items = .ok
      { count_positive := posCount items
        count_negative := items.length - posCount items
        total_listings := items.length
        match_percentage := pyRound2 ((posCount items : ℚ) / (items.length : ℚ) * 100)
        overall_sufficiency :=
          if 50 ≤ pyRound2 ((posCount items : ℚ) / (items.length : ℚ) * 100) ∧
              3 ≤ posCount items then "sufficient" else "not sufficient" } := by
    simp only [EvaluationMetricsTool_run]
    rw [if_neg h, if_pos hlen]
  refine ⟨_, hrun, rfl, rfl, rfl, rfl, ?_⟩
  by_cases hc : 50 ≤ pyRound2 ((posCount items : ℚ) / (items.length : ℚ) * 100) ∧
      3 ≤ posCount items
  · simp [hc]
  · simp only [if_neg hc]
    constructor
    · intro habs
      exact absurd habs (by decide)
    · intro habs
      exact absurd habs hc

/-- C3: the statistics calculator counts every listing in `count_listings`
and every parseable price in `count_prices_parsed`; prepending a listing
with an unparseable price increments `count_listings` and leaves the parsed
count and both statistics blocks unchanged; the `all` block is populated
exactly when some price parses, holding rounded min/max/median; on the
spec's three-listing example the result is
`{2, 3, {120, 1234.56, 677.28}, {120, 1234.56, 677.28}}`. -/
theorem claim_C3 :
    (∀ items : List Item,
      (calculate_from_evaluation items).count_listings = items.length ∧
      (calculate_from_evaluation items).count_prices_parsed = (allPrices items).length) ∧
    (∀ (it : Item) (items : List Item), parsedPrice it = none →
      (calculate_from_evaluation (it :: items)).count_listings
        = (calculate_from_evaluation items).count_listings + 1 ∧
      (calculate_from_evaluation (it :: items)).count_prices_parsed
        = (calculate_from_evaluation items).count_prices_parsed ∧
      (calculate_from_evaluation (it :: items)).price_statistics_all
        = (calculate_from_evaluation items).price_statistics_all ∧
      (calculate_from_evaluation (it :: items)).price_statistics_matches
        = (calculate_from_evaluation items).price_statistics_matches) ∧
    (∀ items : List Item,
      ((calculate_from_evaluation items).price_statistics_all = none ↔ allPrices items = []) ∧
      (allPrices items ≠ [] →
        (calculate_from_evaluation items).price_statistics_all
          = some ⟨pyRound2 (listMin (allPrices items)), pyRound2 (listMax (allPrices items)),
              pyRound2 (medianQ (allPrices items))⟩)) ∧
    calculate_from_evaluation [exL1, exL2, exL3]
      = { count_prices_parsed := 2, count_listings := 3
          price_statistics_all := some ⟨120, 1234.56, 677.28⟩
          price_statistics_matches := some ⟨120, 1234.56, 677.28⟩ } := by
  refine ⟨?_, ?_, ?_, by decide⟩
  · intro items
    exact ⟨rfl, rfl⟩
  · intro it items h
    refine ⟨by simp [calculate_from_evaluation], ?_, ?_, ?_⟩ <;>
      simp [calculate_from_evaluation, allPrices_cons_none it items h,
        matchPrices_cons_none it items h]
  · intro items
    by_cases hp : allPrices items = [] <;> simp [calculate_from_evaluation, hp]

/-- C2 witness: the general part of `claim_C2` instantiated at the
one-element list `[itM]`. -/
theorem claim_C2_witness :
    ∃ m, EvaluationMetricsTool_run [itM] = .ok m ∧
      m.count_positive = posCount [itM] ∧
      m.count_negative = ([itM] : List Item).length - posCount [itM] ∧
      m.total_listings = ([itM] : List Item).length ∧
      m.match_percentage
        = pyRound2 ((posCount [itM] : ℚ) / (([itM] : List Item).length : ℚ) * 100) ∧
      (m.overall_sufficiency = "sufficient" ↔
        50 ≤ m.match_percentage ∧ 3 ≤ m.count_positive) :=
  claim_C2.1 [itM] (by decide)

/-- C3 witness: `claim_C3` instantiated at the unparseable listing `exL2`
prepended to `[exL1]`, and the populated-statistics implication at
`[exL1]`. -/
theorem claim_C3_witness :
    (calculate_from_evaluation [exL2, exL1]).count_prices_parsed
        = (calculate_from_evaluation [exL1]).count_prices_parsed ∧
    (calculate_from_evaluation [exL2, exL1]).price_statistics_all
        = (calculate_from_evaluation [exL1]).price_statistics_all ∧
    (calculate_from_evaluation [exL1]).price_statistics_all
        = some ⟨pyRound2 (listMin (allPrices [exL1])), pyRound2 (listMax (allPrices [exL1])),
            pyRound2 (medianQ (allPrices [exL1]))⟩ :=
  ⟨(claim_C3.2.1 exL2 [exL1] (by decide)).2.1,
   (claim_C3.2.1 exL2 [exL1] (by decide)).2.2.1,
   (claim_C3.2.2.1 [exL1]).2 (by decide)⟩

/-- C4 counterexample: a payload with one matching listing and no reported
`match_percentage` is recorded with percentage `0`, although the local
recomputation from the `is_match` flags that the claim prescribes yields
`100`; and a payload that is locally sufficient (5 of 8 matches) but
reports no `overall_sufficiency` does not stop the run. -/
theorem claim_C4_counterexample :
    (ResellWorkflow_run (.result none)
        (fun i => if i = 1 then .evaluated edC4a else .noData)).history.map
        (fun r => r.match_percentage) = [0] ∧
    spec_local_match_percentage edC4a.individual_results_evaluation = 100 ∧
    (ResellWorkflow_run (.result none)
        (fun i => if i = 1 then .evaluated edC4b else .noData)).success = false ∧
    spec_local_sufficient edC4b.individual_results_evaluation = true := by
  refine ⟨by decide, by decide, by decide, by decide⟩

/-- C4 (amended): the controller prefers collaborator-reported
`count_positive`/`count_negative`/`total_listings` and recomputes only those
three locally when absent (the counts from the truthy `is_match` flags, the
total as their sum); a missing `match_percentage` is NOT recomputed but
defaults to `0`, and the stop decision is taken solely from the reported
`overall_sufficiency` field being `"sufficient"`. -/
theorem claim_C4 :
    ∀ ed : EvalData,
      ∃ r, (ResellWorkflow_run (.result none)
          (fun i => if i = 1 then .evaluated ed else .noData)).history[0]? = some r ∧
        r.count_positive = ed.count_positive.getD
          ((ed.individual_results_evaluation.filter (fun e => e.is_match = some true)).length) ∧
        r.count_negative = ed.count_negative.getD
          ((ed.individual_results_evaluation.filter
            (fun e => ¬(e.is_match = some true))).length) ∧
        r.total_listings = ed.total_listings.getD (r.count_positive + r.count_negative) ∧
        r.match_percentage = ed.match_percentage.getD 0 ∧
        ((ResellWorkflow_run (.result none)
            (fun i => if i = 1 then .evaluated ed else .noData)).success = true ↔
          ed.overall_sufficiency = some "sufficient") := by
  intro ed
  have hrun : (ResellWorkflow_run (.result none)
      (fun i => if i = 1 then .evaluated ed else .noData)).history = [stepRecord [] 1 ed] ∧
      ((ResellWorkflow_run (.result none)
        (fun i => if i = 1 then .evaluated ed else .noData)).success = true ↔
        ed.overall_sufficiency = some "sufficient") := by
    by_cases hs : ed.overall_sufficiency = some "sufficient" <;>
      simp [ResellWorkflow_run, phase1, runFrom, hs]
  refine ⟨stepRecord [] 1 ed, by rw [hrun.1]; rfl, ?_, ?_, ?_, ?_, hrun.2⟩
  · cases hcp : ed.count_positive <;> simp [stepRecord, derivedMetrics, hcp]
  · cases hcn : ed.count_negative <;> simp [stepRecord, derivedMetrics, hcn]
  · cases htl : ed.total_listings <;> simp [stepRecord, derivedMetrics, htl]
  · simp [stepRecord, derivedMetrics]

/-- C5 counterexample: a listing accumulated through a truthy
`match_status` (with no `is_match` key) has a parseable price, yet the
cumulative statistics leave `price_statistics_matches` empty — refuting
that the match flag is implicitly true for every accumulated listing. -/
theorem claim_C5_counterexample :
    mergeMatches [] edMS.individual_results_evaluation = [("a", itMS)] ∧
    (ResellWorkflow_run (.result none)
        (fun i => if i = 1 then .evaluated edMS else .noData)).history.map
        (fun r => r.price_statistics)
      = [{ count_prices_parsed := 1, count_listings := 1
           price_statistics_all := some ⟨120, 120, 120⟩
           price_statistics_matches := none }] := by
  exact ⟨by decide, by decide⟩

/-- C5 (amended): each iteration's price statistics are recomputed over the
full cumulative, id-deduplicated accumulator contents (iteration 2's
recorded statistics are computed over the accumulator merged from both
iterations' listings), and `price_statistics_matches` is populated exactly
from the accumulated listings whose price parses and whose `is_match` field
is literally true — listings accumulated only via `match_status` count in
`price_statistics_all` but not in `price_statistics_matches`. -/
theorem claim_C5 :
    (∀ (o : ℕ → StepOutcome) (ed1 ed2 : EvalData),
      o 1 = .evaluated ed1 → o 2 = .evaluated ed2 →
      ¬ed1.overall_sufficiency = some "sufficient" →
      ∃ r2, (ResellWorkflow_run (.result none) o).history[1]? = some r2 ∧
        r2.price_statistics = calculate_from_evaluation (accValues
          (mergeMatches (mergeMatches [] ed1.individual_results_evaluation)
            ed2.individual_results_evaluation))) ∧
    (∀ items : List Item,
      ((calculate_from_evaluation items).price_statistics_matches = none ↔
        matchPrices items = []) ∧
      (matchPrices items ≠ [] →
        (calculate_from_evaluation items).price_statistics_matches
          = some ⟨pyRound2 (listMin (matchPrices items)), pyRound2 (listMax (matchPrices items)),
              pyRound2 (medianQ (matchPrices items))⟩)) := by
  constructor
  · intro o ed1 ed2 h1 h2 hs1
    refine ⟨stepRecord (mergeMatches [] ed1.individual_results_evaluation) 2 ed2, ?_,
      by rw [stepRecord_stats]⟩
    have hrun : ResellWorkflow_run (.result none) o
        = runFrom o [2, 3] (mergeMatches [] ed1.individual_results_evaluation)
            (bestUpd none (stepRecord [] 1 ed1)) ([] ++ [stepRecord [] 1 ed1]) :=
      runFrom_step_evaluated o 1 [2, 3] [] none [] ed1 h1 hs1
    rw [hrun]
    by_cases hs2 : ed2.overall_sufficiency = some "sufficient"
    · rw [runFrom_step_evaluated_stop o 2 [3] _ _ _ ed2 h2 hs2]
      simp
    · rw [runFrom_step_evaluated o 2 [3] _ _ _ ed2 h2 hs2,
        runFrom_history_getElem o [3] _ _ _ 1 (by simp)]
      simp
  · intro items
    by_cases hp : matchPrices items = [] <;> simp [calculate_from_evaluation, hp]

/-- C5 witness: the general part of `claim_C5` instantiated at the oracle
`o5`, which evaluates `ed5a` in iteration 1 and `ed5b` in iteration 2. -/
theorem claim_C5_witness :
    ∃ r2, (ResellWorkflow_run (.result none) o5).history[1]? = some r2 ∧
      r2.price_statistics = calculate_from_evaluation (accValues
        (mergeMatches (mergeMatches [] ed5a.individual_results_evaluation)
          ed5b.individual_results_evaluation)) :=
  claim_C5.1 o5 ed5a ed5b rfl rfl (by decide)

/-- C6: the best-iteration tracker is replaced only on a strictly greater
`match_percentage` (ties keep the earlier record); consequently every run
whose recorded iterations carry percentages `[40, 40, 55]` ends with the
third record as the tracked best, and every run with `[60, 60]` ends with
the first. -/
theorem claim_C6 :
    (∀ (b : Option IterRes) (r : IterRes),
      r.match_percentage ≤ bestPct b → bestUpd b r = b) ∧
    (∀ (b : Option IterRes) (r : IterRes),
      bestPct b < r.match_percentage → bestUpd b r = some r) ∧
    (∀ o : ℕ → StepOutcome,
      (ResellWorkflow_run (.result none) o).history.map
        (fun r => r.match_percentage) = [40, 40, 55] →
      (ResellWorkflow_run (.result none) o).best_result
        = (ResellWorkflow_run (.result none) o).history[2]?) ∧
    (∀ o : ℕ → StepOutcome,
      (ResellWorkflow_run (.result none) o).history.map
        (fun r => r.match_percentage) = [60, 60] →
      (ResellWorkflow_run (.result none) o).best_result
        = (ResellWorkflow_run (.result none) o).history[0]?) := by
  refine ⟨?_, ?_, ?_, ?_⟩
  · intro b r h
    unfold bestUpd
    rw [if_neg (not_lt.mpr h)]
  · intro b r h
    unfold bestUpd
    rw [if_pos h]
  · intro o hmap
    have hr : ResellWorkflow_run (.result none) o = runFrom o [1, 2, 3] [] none [] := rfl
    obtain ⟨es, hh, hb⟩ := runFrom_decomp o [1, 2, 3] [] none []
    rw [hr] at hmap ⊢
    rw [hh] at hmap ⊢
    simp only [List.nil_append] at hmap ⊢
    rw [hb]
    cases es with
    | nil => simp at hmap
    | cons r1 es1 =>
      cases es1 with
      | nil => simp at hmap
      | cons r2 es2 =>
        cases es2 with
        | nil => simp at hmap
        | cons r3 es3 =>
          cases es3 with
          | cons r4 es4 => simp at hmap
          | nil =>
            simp only [List.map_cons, List.map_nil, List.cons.injEq, and_true] at hmap
            obtain ⟨h1, h2, h3⟩ := hmap
            have e1 : bestUpd none r1 = some r1 := by
              unfold bestUpd
              rw [show bestPct none = 0 from rfl, h1,
                if_pos (show (0 : ℚ) < 40 by decide)]
            have e2 : bestUpd (some r1) r2 = some r1 := by
              unfold bestUpd
              rw [show bestPct (some r1) = r1.match_percentage from rfl, h1, h2,
                if_neg (show ¬(40 : ℚ) < 40 by decide)]
            have e3 : bestUpd (some r1) r3 = some r3 := by
              unfold bestUpd
              rw [show bestPct (some r1) = r1.match_percentage from rfl, h1, h3,
                if_pos (show (40 : ℚ) < 55 by decide)]
            rw [List.foldl_cons, List.foldl_cons, List.foldl_cons, List.foldl_nil, e1, e2, e3]
            rfl
  · intro o hmap
    have hr : ResellWorkflow_run (.result none) o = runFrom o [1, 2, 3] [] none [] := rfl
    obtain ⟨es, hh, hb⟩ := runFrom_decomp o [1, 2, 3] [] none []
    rw [hr] at hmap ⊢
    rw [hh] at hmap ⊢
    simp only [List.nil_append] at hmap ⊢
    rw [hb]
    cases es with
    | nil => simp at hmap
    | cons r1 es1 =>
      cases es1 with
      | nil => simp at hmap
      | cons r2 es2 =>
        cases es2 with
        | cons r3 es3 => simp at hmap
        | nil =>
          simp only [List.map_cons, List.map_nil, List.cons.injEq, and_true] at hmap
          obtain ⟨h1, h2⟩ := hmap
          have e1 : bestUpd none r1 = some r1 := by
            unfold bestUpd
            rw [show bestPct none = 0 from rfl, h1,
              if_pos (show (0 : ℚ) < 60 by decide)]
          have e2 : bestUpd (some r1) r2 = some r1 := by
            unfold bestUpd
            rw [show bestPct (some r1) = r1.match_percentage from rfl, h1, h2,
              if_neg (show ¬(60 : ℚ) < 60 by decide)]
          rw [List.foldl_cons, List.foldl_cons, List.foldl_nil, e1, e2]
          rfl

/-- C6 witness: the two run-level parts of `claim_C6` instantiated at the
concrete oracles `oC6a` (percentages 40, 40, 55) and `oC6b` (60, 60). -/
theorem claim_C6_witness :
    (ResellWorkflow_run (.result none) oC6a).best_result
      = (ResellWorkflow_run (.result none) oC6a).history[2]? ∧
    (ResellWorkflow_run (.result none) oC6b).best_result
      = (ResellWorkflow_run (.result none) oC6b).history[0]? :=
  ⟨claim_C6.2.2.1 oC6a (by decide), claim_C6.2.2.2 oC6b (by decide)⟩

set_option maxRecDepth 4000 in
/-- C7 counterexample: when the image analysis returns an explicit error
status whose message is 201 characters long, the run surfaces the full
201-character message — the claimed 200-character truncation does not
happen on this path. -/
theorem claim_C7_counterexample :
    (ResellWorkflow_run (.result (some longMsg)) (fun _ => .noData)).error = some longMsg ∧
    200 < longMsg.length :=
  ⟨rfl, by
    have h : longMsg.length = 201 := by
      have h2 : longMsg.length = (List.replicate 201 'x').length := rfl
      rw [h2, List.length_replicate]
    rw [h]
    decide⟩

/-- C7 (amended): a phase-1 exception, a `RecursionError`, or an explicit
error status each terminates the run immediately with `success = false`,
`best_iteration = 0`, empty history and empty best result; the exception
path surfaces `str(e)` truncated to at most 200 characters, while the
explicit error-status path surfaces the reported message untruncated. -/
theorem claim_C7 :
    (∀ (msg : String) (o : ℕ → StepOutcome),
      ResellWorkflow_run (.exc msg) o
        = { success := false, error := some (pyTrunc msg 200), best_iteration := 0
            best_result := none, history := [] } ∧
      (pyTrunc msg 200).length ≤ 200) ∧
    (∀ (err : String) (o : ℕ → StepOutcome),
      ResellWorkflow_run (.result (some err)) o
        = { success := false, error := some err, best_iteration := 0
            best_result := none, history := [] }) ∧
    (∀ o : ℕ → StepOutcome,
      ResellWorkflow_run .recErr o
        = { success := false, error := some "maximum recursion depth exceeded"
            best_iteration := 0, best_result := none, history := [] }) := by
  refine ⟨fun msg o => ⟨rfl, ?_⟩, fun err o => rfl, fun o => rfl⟩
  have hlen : (pyTrunc msg 200).length = (msg.data.take 200).length := rfl
  rw [hlen]
  exact List.length_take_le 200 msg.data

/-- C8: the loop produces at most one history entry per `evaluated` outcome
and never more than 3 entries; when all three attempts fail at the
retrieval-verification step (`noData`), the run returns `success = false`,
empty history, `best_iteration = 0` and an untouched best tracker. -/
theorem claim_C8 :
    (∀ o : ℕ → StepOutcome,
      (ResellWorkflow_run (.result none) o).history.length
        ≤ (([1, 2, 3] : List ℕ).filter (fun i => isEval (o i))).length ∧
      (ResellWorkflow_run (.result none) o).history.length ≤ 3) ∧
    (∀ o : ℕ → StepOutcome, o 1 = .noData → o 2 = .noData → o 3 = .noData →
      (ResellWorkflow_run (.result none) o).success = false ∧
      (ResellWorkflow_run (.result none) o).history = [] ∧
      (ResellWorkflow_run (.result none) o).best_iteration = 0 ∧
      (ResellWorkflow_run (.result none) o).best_result = none) := by
  constructor
  · intro o
    have hr : ResellWorkflow_run (.result none) o = runFrom o [1, 2, 3] [] none [] := rfl
    have h1 := runFrom_len_le o [1, 2, 3] [] none []
    simp only [List.length_nil, Nat.zero_add] at h1
    rw [hr]
    refine ⟨h1, le_trans h1 ?_⟩
    have h2 := List.length_filter_le (fun i => isEval (o i)) [1, 2, 3]
    simpa using h2
  · intro o h1 h2 h3
    refine ⟨?_, ?_, ?_, ?_⟩ <;>
      simp [ResellWorkflow_run, phase1, runFrom, bestIterNum, h1, h2, h3]

/-- C8 witness: `claim_C8` applied to the oracle that fails retrieval
verification on all three attempts, and its bound at that oracle. -/
theorem claim_C8_witness :
    ((ResellWorkflow_run (.result none) (fun _ => .noData)).success = false ∧
     (ResellWorkflow_run (.result none) (fun _ => .noData)).history = [] ∧
     (ResellWorkflow_run (.result none) (fun _ => .noData)).best_iteration = 0 ∧
     (ResellWorkflow_run (.result none) (fun _ => .noData)).best_result = none) ∧
    (ResellWorkflow_run (.result none) (fun _ => .noData)).history.length ≤ 3 :=
  ⟨claim_C8.2 (fun _ => .noData) rfl rfl rfl, (claim_C8.1 (fun _ => .noData)).2⟩

/-- C9: the tracker starts as `{"match_percentage": 0}` with no iteration
number and is replaced only on a strictly greater percentage, so a run
whose processed payloads all carry percentage 0 (including by the
default-0 fallback) and never report sufficiency ends with
`best_iteration = 0` and the initial best result even though its history is
non-empty. -/
theorem claim_C9 :
    ∀ o : ℕ → StepOutcome,
      (∀ i ed, o i = .evaluated ed → ed.match_percentage.getD 0 = 0) →
      (∀ i ed, o i = .evaluated ed → ¬ed.overall_sufficiency = some "sufficient") →
      (∃ i, i ∈ ([1, 2, 3] : List ℕ) ∧ isEval (o i) = true) →
      (ResellWorkflow_run (.result none) o).success = false ∧
      (ResellWorkflow_run (.result none) o).best_iteration = 0 ∧
      (ResellWorkflow_run (.result none) o).best_result = none ∧
      (ResellWorkflow_run (.result none) o).history ≠ [] := by
  intro o hpct hsuf hone
  have hr : ResellWorkflow_run (.result none) o = runFrom o [1, 2, 3] [] none [] := rfl
  have hno : ∀ i ∈ ([1, 2, 3] : List ℕ), ∀ ed, o i = .evaluated ed →
      ¬ed.overall_sufficiency = some "sufficient" :=
    fun i _ ed h => hsuf i ed h
  have hstop := runFrom_noStop o [1, 2, 3] hno [] none []
  obtain ⟨es, hh, hb⟩ := runFrom_decomp o [1, 2, 3] [] none []
  have hbest : (runFrom o [1, 2, 3] [] none []).best_result = none := by
    rw [hb]
    refine foldl_bestUpd_zero es ?_
    intro r hrm
    have hmem : r ∈ (runFrom o [1, 2, 3] [] none []).history := by
      rw [hh]
      simpa using hrm
    rcases runFrom_entries o [1, 2, 3] [] none [] r hmem with habs | ⟨ed, he, hpe⟩
    · simp at habs
    · rw [hpe]
      exact hpct _ ed he
  have hne : (runFrom o [1, 2, 3] [] none []).history ≠ [] := by
    have hlen := hstop.2.2
    simp only [List.length_nil, Nat.zero_add] at hlen
    intro habs
    rw [habs] at hlen
    obtain ⟨i, hi, hie⟩ := hone
    have hmem : i ∈ ([1, 2, 3] : List ℕ).filter (fun j => isEval (o j)) :=
      List.mem_filter.mpr ⟨hi, hie⟩
    have hpos : 0 < (([1, 2, 3] : List ℕ).filter (fun j => isEval (o j))).length :=
      List.length_pos.mpr (List.ne_nil_of_mem hmem)
    simp at hlen
    omega
  refine ⟨by rw [hr]; exact hstop.1, ?_, by rw [hr]; exact hbest, by rw [hr]; exact hne⟩
  rw [hr, hstop.2.1, hbest]
  rfl

/-- C9 witness: `claim_C9` applied to the oracle that evaluates the
all-defaults payload (`match_percentage` and `overall_sufficiency` absent)
on every attempt. -/
theorem claim_C9_witness :
    (ResellWorkflow_run (.result none) oZero).success = false ∧
    (ResellWorkflow_run (.result none) oZero).best_iteration = 0 ∧
    (ResellWorkflow_run (.result none) oZero).best_result = none ∧
    (ResellWorkflow_run (.result none) oZero).history ≠ [] := by
  refine claim_C9 oZero ?_ ?_ ⟨1, by decide, rfl⟩
  · intro i ed h
    have h2 : StepOutcome.evaluated edZero = StepOutcome.evaluated ed := h
    injection h2 with h3
    rw [← h3]
    rfl
  · intro i ed h
    have h2 : StepOutcome.evaluated edZero = StepOutcome.evaluated ed := h
    injection h2 with h3
    rw [← h3]
    decide

/-- C10: the accumulator keyed by `str(id)` keeps at most one entry per key
across every merge; all id-less matches collide on the single key `"None"`,
each later one overwriting the earlier; concretely, two id-less matches
with prices 100 and 200 merged in successive iterations leave one
accumulated listing, and the cumulative statistics change from
`{100,100,100}` to `{200,200,200}`. -/
theorem claim_C10 :
    (∀ (acc : Accum) (items : List Item),
      (accKeys acc).Nodup → (accKeys (mergeMatches acc items)).Nodup) ∧
    (∀ (acc : Accum) (m1 m2 : Item), m1.id = none → m2.id = none →
      isCurrentMatch m1 = true → isCurrentMatch m2 = true →
      accLookup "None" (mergeMatches (mergeMatches acc [m1]) [m2]) = some m2) ∧
    (ResellWorkflow_run (.result none) oC10).history.map
        (fun r => (r.price_statistics.count_listings, r.price_statistics.price_statistics_all))
      = [(1, some ⟨100, 100, 100⟩), (1, some ⟨200, 200, 200⟩)] := by
  refine ⟨?_, ?_, by decide⟩
  · intro acc items h
    exact nodup_foldl_dictInsert _ _ h
  · intro acc m1 m2 h1 h2 hm1 hm2
    rw [mergeMatches_single _ _ hm1, mergeMatches_single _ _ hm2, h1, h2]
    exact accLookup_dictInsert_self _ _ _

/-- C10 witness: `claim_C10` instantiated with a concrete non-empty
accumulator and the two concrete id-less matches `mN1`, `mN2`. -/
theorem claim_C10_witness :
    (accKeys (mergeMatches [("b", itM)] [mN1])).Nodup ∧
    accLookup "None" (mergeMatches (mergeMatches [] [mN1]) [mN2]) = some mN2 :=
  ⟨claim_C10.1 [("b", itM)] [mN1] (by decide),
   claim_C10.2.1 [] mN1 mN2 rfl rfl rfl rfl⟩

